import Mathlib

/-!
Shallow embedding of the broadcaster repository's server (`server.js`).

The source contains two server variants:
* a WebRTC signaling relay (one broadcaster, one optional dashboard, a map of
  clients keyed by a monotonically increasing id) — namespace `Relay`;
* a server-mediated capture server (a set of listener sockets, an ffmpeg
  subprocess supervised by connection events) — namespace `Capture`.

Socket behaviour that is external to the program (whether a handle's
`readyState` is `OPEN`, whether a `send` call completes without throwing) is
modelled by an oracle `World` supplied with each event.  JS `Map`s are
modelled by insertion-ordered association lists, JS `Set`s by insertion-ordered
duplicate-free lists, matching JS iteration order.
-/

/-- Per-event oracle for the transport layer: `isOpen c` is the
`readyState === WebSocket.OPEN` test for connection `c`, and `sendOk c` tells
whether a `send` call on `c` returns normally (`false` = the call throws). -/
structure World where
  isOpen : Nat → Bool
  sendOk : Nat → Bool

/-- A world where every socket is open and every send succeeds. -/
def allOpen : World := ⟨fun _ => true, fun _ => true⟩

/-- A world where the socket `dead` is not open, and all sends succeed. -/
def closedAt (dead : Nat) : World := ⟨fun c => c != dead, fun _ => true⟩

/-- A world where every socket is open but sends to `bad` throw. -/
def sendFailAt (bad : Nat) : World := ⟨fun _ => true, fun c => c != bad⟩

/-- Lookup in a JS `Map` modelled as an insertion-ordered association list. -/
def mapGet : List (Nat × α) → Nat → Option α
  | [], _ => none
  | p :: rest, k => if p.1 = k then some p.2 else mapGet rest k

/-- `Map.has`. -/
def mapHas (m : List (Nat × α)) (k : Nat) : Bool :=
  (mapGet m k).isSome

/-- `Map.set`: updates the entry in place when the key is present (JS keeps the
original insertion position), appends otherwise. -/
def mapSet : List (Nat × α) → Nat → α → List (Nat × α)
  | [], k, v => [(k, v)]
  | p :: rest, k, v => if p.1 = k then (k, v) :: rest else p :: mapSet rest k v

/-- `Map.delete`. -/
def mapDelete (m : List (Nat × α)) (k : Nat) : List (Nat × α) :=
  m.filter (fun p => p.1 != k)

namespace Relay

/-- The value of a connection's `clientType` local variable once assigned. -/
inductive Role
  | broadcaster
  | client
  | dashboard
deriving DecidableEq

/-- One record of the `clients` map: the socket handle (by id), the display
name, and the status string (`connecting` / `listening` / `paused`, or whatever
string a `status-update` message carried). -/
structure ClientRec where
  wsId : Nat
  name : String
  status : String
deriving DecidableEq

/-- The per-connection local variables of the `wss.on('connection')` closure:
`clientType` (`null` initially) and `clientId` (`null` until registration). -/
structure ConnVars where
  clientType : Option Role
  clientId : Option Nat
deriving DecidableEq

/-- The relay server's global state: `broadcaster` and `dashboard` slots, the
`clients` map (`clientId -> record`), the `clientIdCounter`, plus the set of
currently connected sockets with their closure-local variables. -/
structure RelayState where
  broadcaster : Option Nat
  dashboard : Option Nat
  clients : List (Nat × ClientRec)
  clientIdCounter : Nat
  conns : List (Nat × ConnVars)
deriving DecidableEq

/-- The state at process start. -/
def initState : RelayState := ⟨none, none, [], 0, []⟩

/-- Parsed inbound control messages (`data.type` dispatch).  Absent JSON
fields are `none`; `data.name` uses `""` for the falsy absent/empty case. -/
inductive InMsg
  | registerDashboard
  | registerBroadcaster
  | registerClient (name : String)
  | requestOffer
  | statusUpdate (status : String)
  | offer (listenerId : Option Nat) (sdp : String)
  | answer (sdp : String)
  | iceCandidate (listenerId : Option Nat) (candidate : String)
  | unknown
deriving DecidableEq

/-- Outbound messages, by `type` and payload. -/
inductive OutMsg
  | dashboardRegistered
  | broadcasterRejected
  | broadcasterRegistered
  | registered (clientId : Nat)
  | noBroadcaster
  | listenerJoined (listenerId : Option Nat) (name : String)
  | clientsFull (count : Nat) (list : List (Nat × String × String))
  | clientsCount (count : Nat)
  | offer (sdp : String)
  | answer (listenerId : Option Nat) (sdp : String)
  | iceToClient (candidate : String)
  | iceToBroadcaster (listenerId : Option Nat) (candidate : String)
  | broadcastEnded
  | listenerLeft (listenerId : Nat) (name : String)
deriving DecidableEq

/-- A successful delivery: recipient connection id and message. -/
abbrev Delivery := Nat × OutMsg

/-- JS truthiness of a possibly absent numeric id (`null`, `undefined` and `0`
are falsy). -/
def truthyId : Option Nat → Bool
  | some n => n != 0
  | none => false

/-- The test `broadcaster && broadcaster.readyState === WebSocket.OPEN`. -/
def brLive (w : World) (s : RelayState) : Bool :=
  match s.broadcaster with
  | some b => w.isOpen b
  | none => false

/-- The closure-local variables of connection `c` (defaults for a socket the
model does not know). -/
def getConn (s : RelayState) (c : Nat) : ConnVars :=
  (mapGet s.conns c).getD ⟨none, none⟩

/-- `getClientList()`: the roster view, in map insertion order. -/
def getClientList (s : RelayState) : List (Nat × String × String) :=
  s.clients.map (fun p => (p.1, p.2.name, p.2.status))

/-- A send guarded by a `readyState` check and a `try/catch` that swallows the
error, as in the per-client loop of `broadcastClientList`. -/
def guardedSend (w : World) (c : Nat) (m : OutMsg) : List Delivery :=
  if w.isOpen c && w.sendOk c then [(c, m)] else []

/-- `broadcastClientList()`.  The sends to the broadcaster and the dashboard
are guarded only by the `readyState` check — no `try/catch` — so a throwing
send there aborts the rest of the function.  The result is the ordered list of
deliveries plus `true` iff the function ran to completion. -/
def broadcastClientList (w : World) (s : RelayState) : List Delivery × Bool :=
  let full := OutMsg.clientsFull s.clients.length (getClientList s)
  let countMsg := OutMsg.clientsCount s.clients.length
  let toBr : List Delivery × Bool :=
    match s.broadcaster with
    | some b =>
      if w.isOpen b then
        (if w.sendOk b then ([(b, full)], true) else ([], false))
      else ([], true)
    | none => ([], true)
  if toBr.2 = false then toBr
  else
    let toDash : List Delivery × Bool :=
      match s.dashboard with
      | some d =>
        if w.isOpen d then
          (if w.sendOk d then ([(d, full)], true) else ([], false))
        else ([], true)
      | none => ([], true)
    if toDash.2 = false then (toBr.1 ++ toDash.1, false)
    else
      (toBr.1 ++ toDash.1 ++
        s.clients.flatMap (fun p => guardedSend w p.2.wsId countMsg), true)

/-- The "register-dashboard" case: take the dashboard slot, set the role, reply
`dashboard-registered` (unguarded send), then `broadcastClientList`. -/
def handleRegisterDashboard (w : World) (s : RelayState) (c : Nat) :
    RelayState × List Delivery :=
  let s1 : RelayState :=
    { s with dashboard := some c,
             conns := mapSet s.conns c
               { getConn s c with clientType := some Role.dashboard } }
  if w.sendOk c then (s1, (c, OutMsg.dashboardRegistered) :: (broadcastClientList w s1).1)
  else (s1, [])

/-- The "register-broadcaster" case: reject (reply `broadcaster-rejected`) when
a live broadcaster holds the slot, otherwise take the slot, set the role, reply
`broadcaster-registered`, then `broadcastClientList`. -/
def handleRegisterBroadcaster (w : World) (s : RelayState) (c : Nat) :
    RelayState × List Delivery :=
  if brLive w s then
    (s, if w.sendOk c then [(c, OutMsg.broadcasterRejected)] else [])
  else
    let s1 : RelayState :=
      { s with broadcaster := some c,
               conns := mapSet s.conns c
                 { getConn s c with clientType := some Role.broadcaster } }
    if w.sendOk c then (s1, (c, OutMsg.broadcasterRegistered) :: (broadcastClientList w s1).1)
    else (s1, [])

/-- The registry mutation of the "register-client" case: bump the counter,
insert the record (default name `Client <id>` when the supplied name is falsy)
with status `connecting`, and set the connection's role and id locals. -/
def registerClientState (s : RelayState) (c : Nat) (name : String) : RelayState :=
  { s with clientIdCounter := s.clientIdCounter + 1,
           clients := mapSet s.clients (s.clientIdCounter + 1)
             ⟨c, if name = "" then "Client " ++ toString (s.clientIdCounter + 1) else name,
              "connecting"⟩,
           conns := mapSet s.conns c ⟨some Role.client, some (s.clientIdCounter + 1)⟩ }

/-- The "register-client" case: set role and fresh id (`++clientIdCounter`),
insert the record with status `connecting`, run `broadcastClientList`, and only
then reply `registered` with the assigned id. -/
def handleRegisterClient (w : World) (s : RelayState) (c : Nat) (name : String) :
    RelayState × List Delivery :=
  if (broadcastClientList w (registerClientState s c name)).2 then
    (registerClientState s c name,
     (broadcastClientList w (registerClientState s c name)).1 ++
       (if w.sendOk c then [(c, OutMsg.registered (s.clientIdCounter + 1))] else []))
  else (registerClientState s c name, (broadcastClientList w (registerClientState s c name)).1)

/-- Replace the status of the record at key `i`, as the handler's
`get`-mutate-`set` sequence does. -/
def setStatus (m : List (Nat × ClientRec)) (i : Nat) (st : String) :
    List (Nat × ClientRec) :=
  match mapGet m i with
  | some rec => mapSet m i { rec with status := st }
  | none => m

/-- The `clients.get(clientId)?.name || 'Unknown'` expression: `'Unknown'`
when the id is null, the record absent, or the stored name falsy. -/
def listenerJoinedName (m : List (Nat × ClientRec)) (cid : Option Nat) : String :=
  match cid with
  | some i =>
    match mapGet m i with
    | some rec => if rec.name = "" then "Unknown" else rec.name
    | none => "Unknown"
  | none => "Unknown"

/-- The conditional status mutation inside "request-offer": mark the sender's
record `listening` when its `clientId` is truthy and present. -/
def requestOfferUpd (s : RelayState) (c : Nat) : RelayState :=
  if truthyId (getConn s c).clientId
      && mapHas s.clients (((getConn s c).clientId).getD 0) then
    { s with clients := setStatus s.clients (((getConn s c).clientId).getD 0) "listening" }
  else s

/-- The "request-offer" case.  No role check: any connection reaches it.  With
no live broadcaster, reply `no-broadcaster`.  Otherwise mark the sender's
record `listening` when it has one (notifying the roster), and send
`listener-joined` to the broadcaster with the sender's (possibly null)
`clientId` and its name (`'Unknown'` when absent or falsy). -/
def handleRequestOffer (w : World) (s : RelayState) (c : Nat) :
    RelayState × List Delivery :=
  if brLive w s = false then
    (s, if w.sendOk c then [(c, OutMsg.noBroadcaster)] else [])
  else if truthyId (getConn s c).clientId
      && mapHas s.clients (((getConn s c).clientId).getD 0) then
    if (broadcastClientList w (requestOfferUpd s c)).2 then
      (requestOfferUpd s c,
       (broadcastClientList w (requestOfferUpd s c)).1 ++
         (if w.sendOk (s.broadcaster.getD 0) then
            [(s.broadcaster.getD 0,
              OutMsg.listenerJoined (getConn s c).clientId
                (listenerJoinedName (requestOfferUpd s c).clients (getConn s c).clientId))]
          else []))
    else (requestOfferUpd s c, (broadcastClientList w (requestOfferUpd s c)).1)
  else
    (s, if w.sendOk (s.broadcaster.getD 0) then
          [(s.broadcaster.getD 0,
            OutMsg.listenerJoined (getConn s c).clientId
              (listenerJoinedName s.clients (getConn s c).clientId))]
        else [])

/-- The registry mutation of the "status-update" case. -/
def statusUpdState (s : RelayState) (c : Nat) (st : String) : RelayState :=
  { s with clients := setStatus s.clients (((getConn s c).clientId).getD 0) st }

/-- The "status-update" case: no-op unless the sender's `clientId` is truthy
and present in the map; otherwise replace the status string as given and
notify the roster. -/
def handleStatusUpdate (w : World) (s : RelayState) (c : Nat) (st : String) :
    RelayState × List Delivery :=
  if truthyId (getConn s c).clientId
      && mapHas s.clients (((getConn s c).clientId).getD 0) then
    (statusUpdState s c st, (broadcastClientList w (statusUpdState s c st)).1)
  else (s, [])

/-- The "offer" case: forwarded only when the sender's role is broadcaster and
`data.listenerId` is truthy and maps to a record with an open socket. -/
def handleOffer (w : World) (s : RelayState) (c : Nat) (lid : Option Nat) (sdp : String) :
    RelayState × List Delivery :=
  if (getConn s c).clientType = some Role.broadcaster ∧ truthyId lid then
    match mapGet s.clients (lid.getD 0) with
    | some rec =>
      if w.isOpen rec.wsId then
        (s, if w.sendOk rec.wsId then [(rec.wsId, OutMsg.offer sdp)] else [])
      else (s, [])
    | none => (s, [])
  else (s, [])

/-- The "answer" case: forwarded to the broadcaster (tagged with the sender's
`clientId`) only when the sender's role is client and the broadcaster is
live. -/
def handleAnswer (w : World) (s : RelayState) (c : Nat) (sdp : String) :
    RelayState × List Delivery :=
  if (getConn s c).clientType = some Role.client ∧ brLive w s then
    (s, if w.sendOk (s.broadcaster.getD 0) then
          [(s.broadcaster.getD 0, OutMsg.answer (getConn s c).clientId sdp)]
        else [])
  else (s, [])

/-- The "ice-candidate" case: broadcaster-to-client when the sender's role is
broadcaster and the id is truthy, client-to-broadcaster when the sender's role
is client and the broadcaster is live, dropped otherwise. -/
def handleIceCandidate (w : World) (s : RelayState) (c : Nat) (lid : Option Nat)
    (cand : String) : RelayState × List Delivery :=
  if (getConn s c).clientType = some Role.broadcaster ∧ truthyId lid then
    match mapGet s.clients (lid.getD 0) with
    | some rec =>
      if w.isOpen rec.wsId then
        (s, if w.sendOk rec.wsId then [(rec.wsId, OutMsg.iceToClient cand)] else [])
      else (s, [])
    | none => (s, [])
  else if (getConn s c).clientType = some Role.client ∧ brLive w s then
    (s, if w.sendOk (s.broadcaster.getD 0) then
          [(s.broadcaster.getD 0, OutMsg.iceToBroadcaster (getConn s c).clientId cand)]
        else [])
  else (s, [])

/-- The `ws.on('message')` dispatch. -/
def handleMessage (w : World) (s : RelayState) (c : Nat) (m : InMsg) :
    RelayState × List Delivery :=
  match m with
  | InMsg.registerDashboard => handleRegisterDashboard w s c
  | InMsg.registerBroadcaster => handleRegisterBroadcaster w s c
  | InMsg.registerClient name => handleRegisterClient w s c name
  | InMsg.requestOffer => handleRequestOffer w s c
  | InMsg.statusUpdate st => handleStatusUpdate w s c st
  | InMsg.offer lid sdp => handleOffer w s c lid sdp
  | InMsg.answer sdp => handleAnswer w s c sdp
  | InMsg.iceCandidate lid cand => handleIceCandidate w s c lid cand
  | InMsg.unknown => (s, [])

/-- The broadcaster-close loop: `broadcast-ended` to each record with an open
socket, with an unguarded `send` — a throw aborts the rest of the loop. -/
def sendEndedLoop (w : World) : List (Nat × ClientRec) → List Delivery
  | [] => []
  | p :: rest =>
    if w.isOpen p.2.wsId then
      if w.sendOk p.2.wsId then (p.2.wsId, OutMsg.broadcastEnded) :: sendEndedLoop w rest
      else []
    else sendEndedLoop w rest

/-- The name reported in `listener-left`: the record's stored name when the
record is still present, else the default `Client <id>`. -/
def closeClientName (m : List (Nat × ClientRec)) (cid : Nat) : String :=
  match mapGet m cid with
  | some rec => rec.name
  | none => "Client " ++ toString cid

/-- The client-close registry mutation: delete the record of the closing
connection's current `clientId`. -/
def closeDeletedState (s : RelayState) (cid : Nat) : RelayState :=
  { s with clients := mapDelete s.clients cid }

/-- The body of the `ws.on('close')` handler before bookkeeping, dispatching
on the closing connection's role.  In the client branch, the `listener-left`
send to a live broadcaster is unguarded: when it throws, `broadcastClientList`
never runs. -/
def closeInner (w : World) (s : RelayState) (c : Nat) : RelayState × List Delivery :=
  match (getConn s c).clientType with
  | some Role.dashboard => ({ s with dashboard := none }, [])
  | some Role.broadcaster =>
    ({ s with broadcaster := none }, sendEndedLoop w s.clients)
  | some Role.client =>
    match (getConn s c).clientId with
    | some cid =>
      if cid != 0 then
        match s.broadcaster with
        | some b =>
          if w.isOpen b then
            if w.sendOk b then
              (closeDeletedState s cid,
               (b, OutMsg.listenerLeft cid (closeClientName s.clients cid)) ::
                 (broadcastClientList w (closeDeletedState s cid)).1)
            else (closeDeletedState s cid, [])
          else (closeDeletedState s cid, (broadcastClientList w (closeDeletedState s cid)).1)
        | none => (closeDeletedState s cid, (broadcastClientList w (closeDeletedState s cid)).1)
      else (s, [])
    | none => (s, [])
  | none => (s, [])

/-- The `ws.on('close')` handler; afterwards the socket and its closure
variables are gone from the model's bookkeeping. -/
def handleClose (w : World) (s : RelayState) (c : Nat) : RelayState × List Delivery :=
  ({ (closeInner w s c).1 with conns := mapDelete (closeInner w s c).1.conns c },
   (closeInner w s c).2)

/-- Transport events driving the relay server; each carries the world oracle
in force while its handler runs. -/
inductive Ev
  | connect (c : Nat)
  | message (w : World) (c : Nat) (m : InMsg)
  | close (w : World) (c : Nat)

/-- One event step.  Message and close events on sockets the server does not
know are no-ops (no handler is installed for them); a connect for an existing
socket id is likewise a no-op. -/
def step (s : RelayState) : Ev → RelayState × List Delivery
  | Ev.connect c =>
    (if mapHas s.conns c then s
     else { s with conns := s.conns ++ [(c, ⟨none, none⟩)] }, [])
  | Ev.message w c m => if mapHas s.conns c then handleMessage w s c m else (s, [])
  | Ev.close w c => if mapHas s.conns c then handleClose w s c else (s, [])

/-- Run a trace of events, accumulating deliveries in order. -/
def run (s : RelayState) : List Ev → RelayState × List Delivery
  | [] => (s, [])
  | e :: es =>
    let r := step s e
    let r2 := run r.1 es
    (r2.1, r.2 ++ r2.2)

/-- The listener id assigned by an event, when it is an effective
"register-client" message. -/
def stepAssign (s : RelayState) : Ev → Option Nat
  | Ev.message _ c (InMsg.registerClient _) =>
    if mapHas s.conns c then some (s.clientIdCounter + 1) else none
  | _ => none

/-- The ids assigned along a trace, in order. -/
def assignedIds (s : RelayState) : List Ev → List Nat
  | [] => []
  | e :: es => (stepAssign s e).toList ++ assignedIds (step s e).1 es

end Relay

namespace Capture

/-- State of the server-mediated variant: the `clients` set of listener
sockets (insertion order), whether an `audioProcess` handle is held, and the
`isStreaming` flag. -/
structure CapState where
  clients : List Nat
  audioProcess : Bool
  isStreaming : Bool
deriving DecidableEq

/-- The state at process start. -/
def capInit : CapState := ⟨[], false, false⟩

/-- Externally visible effects of the capture server's handlers. -/
inductive Effect
  | spawn
  | kill
  | scheduleRestart (delayMs : Nat)
  | chunkSent (c : Nat)
  | countSent (c : Nat)
deriving DecidableEq

/-- `Set.add`. -/
def setAdd (l : List Nat) (c : Nat) : List Nat :=
  if l.contains c then l else l ++ [c]

/-- `Set.delete`. -/
def setDelete (l : List Nat) (c : Nat) : List Nat :=
  l.filter (fun x => x != c)

/-- `startAudioCapture()`: returns immediately when a subprocess handle
exists; otherwise spawns ffmpeg and sets the flags.  It never inspects the
listener count. -/
def startAudioCapture (s : CapState) : CapState × List Effect :=
  if s.audioProcess then (s, [])
  else ({ s with audioProcess := true, isStreaming := true }, [Effect.spawn])

/-- `stopAudioCapture()`: kills the subprocess when a handle exists. -/
def stopAudioCapture (s : CapState) : CapState × List Effect :=
  if s.audioProcess then
    ({ s with audioProcess := false, isStreaming := false }, [Effect.kill])
  else (s, [])

/-- `broadcastListenerCount()`: count message to every open socket, each send
in a `try/catch`. -/
def broadcastListenerCount (w : World) (s : CapState) : List Effect :=
  s.clients.flatMap
    (fun c => if w.isOpen c && w.sendOk c then [Effect.countSent c] else [])

/-- `broadcastAudio(chunk)`: send the chunk to every open socket (errors
collected), then delete every socket that was not open or whose send threw. -/
def broadcastAudio (w : World) (s : CapState) : CapState × List Effect :=
  ({ s with clients := s.clients.filter (fun c => w.isOpen c && w.sendOk c) },
   s.clients.flatMap
     (fun c => if w.isOpen c && w.sendOk c then [Effect.chunkSent c] else []))

/-- The `wss.on('connection')` handler: add the socket, broadcast the count,
and start capture when the set became of size 1 with no subprocess. -/
def handleConnect (w : World) (s : CapState) (c : Nat) : CapState × List Effect :=
  if (setAdd s.clients c).length = 1 ∧ s.audioProcess = false then
    ((startAudioCapture { s with clients := setAdd s.clients c }).1,
     broadcastListenerCount w { s with clients := setAdd s.clients c }
       ++ (startAudioCapture { s with clients := setAdd s.clients c }).2)
  else ({ s with clients := setAdd s.clients c },
        broadcastListenerCount w { s with clients := setAdd s.clients c })

/-- The socket `close` handler: delete the socket, broadcast the count, stop
capture when no clients remain. -/
def handleSockClose (w : World) (s : CapState) (c : Nat) : CapState × List Effect :=
  if (setDelete s.clients c).length = 0 then
    ((stopAudioCapture { s with clients := setDelete s.clients c }).1,
     broadcastListenerCount w { s with clients := setDelete s.clients c }
       ++ (stopAudioCapture { s with clients := setDelete s.clients c }).2)
  else ({ s with clients := setDelete s.clients c },
        broadcastListenerCount w { s with clients := setDelete s.clients c })

/-- The socket `error` handler: delete the socket, nothing else. -/
def handleWsError (s : CapState) (c : Nat) : CapState × List Effect :=
  ({ s with clients := setDelete s.clients c }, [])

/-- The subprocess `close` handler: clear the handle and the flag, and — when
clients remain — schedule `startAudioCapture` after a fixed 1000 ms delay. -/
def handleProcExit (s : CapState) : CapState × List Effect :=
  if s.clients.length > 0 then
    ({ s with audioProcess := false, isStreaming := false }, [Effect.scheduleRestart 1000])
  else ({ s with audioProcess := false, isStreaming := false }, [])

/-- The subprocess `error` handler (spawn failure): clear the handle and the
flag, no retry. -/
def handleProcError (s : CapState) : CapState × List Effect :=
  ({ s with audioProcess := false, isStreaming := false }, [])

/-- `POST /api/device/:index`: when streaming, stop then immediately
restart. -/
def handleDeviceSwitch (s : CapState) : CapState × List Effect :=
  if s.isStreaming then
    ((startAudioCapture (stopAudioCapture s).1).1,
     (stopAudioCapture s).2 ++ (startAudioCapture (stopAudioCapture s).1).2)
  else (s, [])

/-- Events driving the capture server. -/
inductive CapEv
  | connect (w : World) (c : Nat)
  | close (w : World) (c : Nat)
  | wsError (c : Nat)
  | chunk (w : World)
  | procExit
  | procError
  | timerFire
  | deviceSwitch

/-- One event step of the capture server. -/
def capStep (s : CapState) : CapEv → CapState × List Effect
  | CapEv.connect w c => handleConnect w s c
  | CapEv.close w c => handleSockClose w s c
  | CapEv.wsError c => handleWsError s c
  | CapEv.chunk w => broadcastAudio w s
  | CapEv.procExit => handleProcExit s
  | CapEv.procError => handleProcError s
  | CapEv.timerFire => startAudioCapture s
  | CapEv.deviceSwitch => handleDeviceSwitch s

/-- Run a trace of capture-server events, accumulating effects. -/
def capRun (s : CapState) : List CapEv → CapState × List Effect
  | [] => (s, [])
  | e :: es =>
    let r := capStep s e
    let r2 := capRun r.1 es
    (r2.1, r.2 ++ r2.2)

end Capture

namespace Relay

/-- A roster notification, as produced by `broadcastClientList` (full list or
count-only view). -/
def isRoster : OutMsg → Bool
  | OutMsg.clientsFull _ _ => true
  | OutMsg.clientsCount _ => true
  | _ => false

/-- Fixture: socket 0 connects and registers as a client. -/
def reRegTrace : List Ev := [Ev.connect 0, Ev.message allOpen 0 (InMsg.registerClient "A")]

/-- Fixture: the state after `reRegTrace`. -/
def reRegState : RelayState := (run initState reRegTrace).1

/-- Fixture: broadcaster on socket 10, then client "A" (id 1) on socket 20. -/
def regTrace : List Ev :=
  [Ev.connect 10, Ev.message allOpen 10 InMsg.registerBroadcaster,
   Ev.connect 20, Ev.message allOpen 20 (InMsg.registerClient "A")]

/-- Fixture: the state after `regTrace`. -/
def sBL : RelayState := (run initState regTrace).1

/-- Fixture: a broadcaster on socket 1, a dashboard on socket 2 and one client
record for socket 3, used to probe `broadcastClientList` delivery. -/
def notifyState : RelayState :=
  ⟨some 1, some 2, [(1, ⟨3, "C", "connecting"⟩)], 1,
   [(1, ⟨some Role.broadcaster, none⟩), (2, ⟨some Role.dashboard, none⟩),
    (3, ⟨some Role.client, some 1⟩)]⟩

/-- Fixture: broadcaster on socket 1 and a dashboard on socket 2. -/
def dashTrace : List Ev :=
  [Ev.connect 1, Ev.message allOpen 1 InMsg.registerBroadcaster,
   Ev.connect 2, Ev.message allOpen 2 InMsg.registerDashboard]

/-- Fixture: the state after `dashTrace`. -/
def dashState : RelayState := (run initState dashTrace).1

/-- Fixture: socket 5 registers as a client twice (ids 1 and 2), then
closes. -/
def tenTrace : List Ev :=
  [Ev.connect 5, Ev.message allOpen 5 (InMsg.registerClient "A"),
   Ev.message allOpen 5 (InMsg.registerClient "B"), Ev.close allOpen 5]

/-- Fixture: the first three events of `tenTrace` (before the close). -/
def tenMidState : RelayState := (run initState (tenTrace.take 3)).1

/-- Fixture: the state after `tenTrace`. -/
def tenState : RelayState := (run initState tenTrace).1

/-- Invariant used for the stale-record claim: the registry holds the record
`(1, ws 5, "A", connecting)`, the id counter has moved past 1, and no live
connection's `clientId` is 1 (so no close event can ever delete key 1). -/
def keyOneStale (s : RelayState) : Prop :=
  mapGet s.clients 1 = some ⟨5, "A", "connecting"⟩
  ∧ 1 ≤ s.clientIdCounter
  ∧ ∀ c v, mapGet s.conns c = some v → v.clientId ≠ some 1

end Relay

namespace Capture

/-- Whether a capture-server event is a subprocess launch failure. -/
def isProcError : CapEv → Bool
  | CapEv.procError => true
  | _ => false

/-- Fixture: one listener joins (capture starts), the subprocess crashes
(restart scheduled), the listener leaves before the delay elapses, then the
restart timer fires. -/
def restartTrace : List CapEv :=
  [CapEv.connect allOpen 1, CapEv.procExit, CapEv.close allOpen 1, CapEv.timerFire]

/-- Fixture: one listener joins (capture starts), then a chunk arrives while
that listener's socket is dead, so the fan-out pass reaps it. -/
def reapTrace : List CapEv := [CapEv.connect allOpen 2, CapEv.chunk (closedAt 2)]

end Capture

theorem mapGet_set_self (m : List (Nat × α)) (k : Nat) (v : α) :
    mapGet (mapSet m k v) k = some v := by
  induction m with
  | nil => simp [mapSet, mapGet]
  | cons p rest ih =>
    by_cases h : p.1 = k
    · simp [mapSet, h, mapGet]
    · simp [mapSet, h, mapGet, ih]

theorem mapGet_set_ne (m : List (Nat × α)) (k k' : Nat) (v : α) (h : k' ≠ k) :
    mapGet (mapSet m k v) k' = mapGet m k' := by
  induction m with
  | nil =>
    simp only [mapSet, mapGet]
    rw [if_neg (fun hh => h hh.symm)]
  | cons p rest ih =>
    simp only [mapSet]
    by_cases hp : p.1 = k
    · rw [if_pos hp]
      simp only [mapGet]
      rw [if_neg (fun hh => h hh.symm), if_neg (by rw [hp]; exact fun hh => h hh.symm)]
    · rw [if_neg hp]
      simp only [mapGet]
      by_cases hq : p.1 = k'
      · rw [if_pos hq, if_pos hq]
      · rw [if_neg hq, if_neg hq, ih]

theorem mapGet_set_cases (m : List (Nat × α)) (k c : Nat) (v u : α)
    (h : mapGet (mapSet m k v) c = some u) : (c = k ∧ u = v) ∨ mapGet m c = some u := by
  by_cases hc : c = k
  · subst hc
    rw [mapGet_set_self] at h
    exact Or.inl ⟨rfl, (Option.some_inj.mp h).symm⟩
  · rw [mapGet_set_ne _ _ _ _ hc] at h
    exact Or.inr h

theorem mapGet_delete_self (m : List (Nat × α)) (k : Nat) :
    mapGet (mapDelete m k) k = none := by
  induction m with
  | nil => rfl
  | cons p rest ih =>
    by_cases hp : p.1 = k
    · simpa [mapDelete, List.filter_cons, hp] using ih
    · simpa [mapDelete, List.filter_cons, hp, mapGet] using ih

theorem mapGet_delete_ne (m : List (Nat × α)) (k k' : Nat) (h : k' ≠ k) :
    mapGet (mapDelete m k) k' = mapGet m k' := by
  induction m with
  | nil => rfl
  | cons p rest ih =>
    simp only [mapDelete, List.filter_cons] at ih ⊢
    by_cases hp : p.1 = k
    · rw [if_neg (by simp [hp])]
      simp only [mapGet]
      rw [if_neg (by rw [hp]; exact fun hh => h hh.symm)]
      exact ih
    · rw [if_pos (by simpa using hp)]
      simp only [mapGet]
      by_cases hq : p.1 = k'
      · rw [if_pos hq, if_pos hq]
      · rw [if_neg hq, if_neg hq]
        exact ih

theorem mapGet_delete_sub (m : List (Nat × α)) (k c : Nat) (u : α)
    (h : mapGet (mapDelete m k) c = some u) : mapGet m c = some u := by
  by_cases hc : c = k
  · subst hc
    rw [mapGet_delete_self] at h
    cases h
  · rwa [mapGet_delete_ne _ _ _ hc] at h

theorem mapGet_append_single (m : List (Nat × α)) (k c : Nat) (v u : α)
    (h : mapGet (m ++ [(k, v)]) c = some u) :
    mapGet m c = some u ∨ (c = k ∧ u = v) := by
  induction m with
  | nil =>
    by_cases hk : k = c
    · subst hk
      simp [mapGet] at h
      exact Or.inr ⟨rfl, h.symm⟩
    · simp [mapGet, hk] at h
  | cons p rest ih =>
    by_cases hp : p.1 = c
    · simp only [List.cons_append, mapGet, hp, if_pos rfl] at h ⊢
      exact Or.inl h
    · simp only [List.cons_append, mapGet, hp, if_neg hp] at h ⊢
      exact ih h

theorem mapGet_mem (m : List (Nat × α)) (k : Nat) (v : α)
    (h : mapGet m k = some v) : (k, v) ∈ m := by
  induction m with
  | nil => cases h
  | cons p rest ih =>
    obtain ⟨a, b⟩ := p
    simp only [mapGet] at h
    by_cases hp : a = k
    · rw [if_pos hp] at h
      injection h with h2
      subst hp
      subst h2
      exact List.mem_cons_self _ _
    · rw [if_neg hp] at h
      exact List.mem_cons_of_mem _ (ih h)

namespace Relay

theorem mapGet_setStatus_ne (m : List (Nat × ClientRec)) (i k : Nat) (st : String)
    (h : k ≠ i) : mapGet (setStatus m i st) k = mapGet m k := by
  unfold setStatus
  cases hm : mapGet m i with
  | none => rfl
  | some rec => rw [mapGet_set_ne _ _ _ _ h]

theorem hRD_state (w : World) (s : RelayState) (c : Nat) :
    (handleRegisterDashboard w s c).1 =
      { s with dashboard := some c,
               conns := mapSet s.conns c
                 { getConn s c with clientType := some Role.dashboard } } := by
  unfold handleRegisterDashboard
  split <;> rfl

theorem hRB_state (w : World) (s : RelayState) (c : Nat) :
    (brLive w s = true ∧ (handleRegisterBroadcaster w s c).1 = s) ∨
    (brLive w s = false ∧ (handleRegisterBroadcaster w s c).1 =
      { s with broadcaster := some c,
               conns := mapSet s.conns c
                 { getConn s c with clientType := some Role.broadcaster } }) := by
  by_cases h : brLive w s
  · left
    refine ⟨h, ?_⟩
    simp only [handleRegisterBroadcaster, if_pos h]
  · right
    refine ⟨by simpa using h, ?_⟩
    simp only [handleRegisterBroadcaster, if_neg h]
    split <;> rfl

theorem hRC_state (w : World) (s : RelayState) (c : Nat) (name : String) :
    (handleRegisterClient w s c name).1 = registerClientState s c name := by
  unfold handleRegisterClient
  split <;> rfl

theorem requestOfferUpd_state (s : RelayState) (c : Nat) :
    requestOfferUpd s c = s ∨
    ∃ i, (getConn s c).clientId = some i ∧
      requestOfferUpd s c = { s with clients := setStatus s.clients i "listening" } := by
  unfold requestOfferUpd
  cases hc : (getConn s c).clientId with
  | none => simp [truthyId]
  | some i =>
    by_cases h0 : i = 0
    · subst h0
      simp [truthyId]
    · by_cases hm : mapHas s.clients i
      · right
        refine ⟨i, rfl, ?_⟩
        have ht : truthyId (some i) = true := by simp [truthyId, h0]
        simp [ht, hm]
      · left
        simp [truthyId, hm]

theorem hRO_state (w : World) (s : RelayState) (c : Nat) :
    (handleRequestOffer w s c).1 = s ∨ (handleRequestOffer w s c).1 = requestOfferUpd s c := by
  unfold handleRequestOffer
  split
  · exact Or.inl rfl
  · split
    · split
      · exact Or.inr rfl
      · exact Or.inr rfl
    · exact Or.inl rfl

theorem hSU_state (w : World) (s : RelayState) (c : Nat) (st : String) :
    (handleStatusUpdate w s c st).1 = s ∨
    ∃ i, (getConn s c).clientId = some i ∧
      (handleStatusUpdate w s c st).1 = { s with clients := setStatus s.clients i st } := by
  unfold handleStatusUpdate
  split
  · rename_i hd
    unfold statusUpdState
    cases hc : (getConn s c).clientId with
    | none =>
      rw [hc] at hd
      simp [truthyId] at hd
    | some i => exact Or.inr ⟨i, rfl, rfl⟩
  · exact Or.inl rfl

theorem hOffer_state (w : World) (s : RelayState) (c : Nat) (lid : Option Nat) (sdp : String) :
    (handleOffer w s c lid sdp).1 = s := by
  unfold handleOffer
  split
  · split
    · split <;> rfl
    · rfl
  · rfl

theorem hAnswer_state (w : World) (s : RelayState) (c : Nat) (sdp : String) :
    (handleAnswer w s c sdp).1 = s := by
  unfold handleAnswer
  split <;> rfl

theorem hIce_state (w : World) (s : RelayState) (c : Nat) (lid : Option Nat) (cand : String) :
    (handleIceCandidate w s c lid cand).1 = s := by
  unfold handleIceCandidate
  split
  · split
    · split <;> rfl
    · rfl
  · split <;> rfl

theorem closeInner_state (w : World) (s : RelayState) (c : Nat) :
    (closeInner w s c).1 = s ∨ (closeInner w s c).1 = { s with dashboard := none } ∨
    (closeInner w s c).1 = { s with broadcaster := none } ∨
    ∃ cid, (getConn s c).clientId = some cid ∧
      (closeInner w s c).1 = closeDeletedState s cid := by
  cases hct : (getConn s c).clientType with
  | none => exact Or.inl (by simp [closeInner, hct])
  | some r =>
    cases r with
    | dashboard => exact Or.inr (Or.inl (by simp [closeInner, hct]))
    | broadcaster => exact Or.inr (Or.inr (Or.inl (by simp [closeInner, hct])))
    | client =>
      cases hc : (getConn s c).clientId with
      | none => exact Or.inl (by simp [closeInner, hct, hc])
      | some cid =>
        by_cases h0 : (cid != 0) = true
        · refine Or.inr (Or.inr (Or.inr ⟨cid, rfl, ?_⟩))
          cases hb : s.broadcaster with
          | none => simp [closeInner, hct, hc, h0, hb]
          | some b =>
            by_cases ho : w.isOpen b
            · by_cases hs : w.sendOk b <;> simp [closeInner, hct, hc, h0, hb, ho, hs]
            · simp [closeInner, hct, hc, h0, hb, ho]
        · have h0' : (cid != 0) = false := by simpa using h0
          exact Or.inl (by simp [closeInner, hct, hc, h0'])

theorem requestOfferUpd_same (s : RelayState) (c : Nat) :
    (requestOfferUpd s c).broadcaster = s.broadcaster
    ∧ (requestOfferUpd s c).dashboard = s.dashboard
    ∧ (requestOfferUpd s c).clientIdCounter = s.clientIdCounter
    ∧ (requestOfferUpd s c).conns = s.conns := by
  unfold requestOfferUpd
  split <;> exact ⟨rfl, rfl, rfl, rfl⟩

theorem handleMessage_counter (w : World) (s : RelayState) (c : Nat) (m : InMsg) :
    (handleMessage w s c m).1.clientIdCounter =
      (match m with
       | InMsg.registerClient _ => s.clientIdCounter + 1
       | _ => s.clientIdCounter) := by
  cases m with
  | registerDashboard => rw [show handleMessage w s c InMsg.registerDashboard = handleRegisterDashboard w s c from rfl, hRD_state]
  | registerBroadcaster =>
    rcases hRB_state w s c with ⟨_, h⟩ | ⟨_, h⟩ <;>
      rw [show handleMessage w s c InMsg.registerBroadcaster = handleRegisterBroadcaster w s c from rfl, h]
  | registerClient name =>
    rw [show handleMessage w s c (InMsg.registerClient name) = handleRegisterClient w s c name from rfl, hRC_state]
    rfl
  | requestOffer =>
    rcases hRO_state w s c with h | h <;>
      rw [show handleMessage w s c InMsg.requestOffer = handleRequestOffer w s c from rfl, h]
    exact (requestOfferUpd_same s c).2.2.1
  | statusUpdate st =>
    rcases hSU_state w s c st with h | ⟨i, _, h⟩ <;>
      rw [show handleMessage w s c (InMsg.statusUpdate st) = handleStatusUpdate w s c st from rfl, h]
  | offer lid sdp =>
    rw [show handleMessage w s c (InMsg.offer lid sdp) = handleOffer w s c lid sdp from rfl,
      hOffer_state]
  | answer sdp =>
    rw [show handleMessage w s c (InMsg.answer sdp) = handleAnswer w s c sdp from rfl,
      hAnswer_state]
  | iceCandidate lid cand =>
    rw [show handleMessage w s c (InMsg.iceCandidate lid cand) = handleIceCandidate w s c lid cand from rfl,
      hIce_state]
  | unknown => rfl

theorem handleClose_counter (w : World) (s : RelayState) (c : Nat) :
    (handleClose w s c).1.clientIdCounter = s.clientIdCounter := by
  have hf : (handleClose w s c).1.clientIdCounter = (closeInner w s c).1.clientIdCounter := rfl
  rw [hf]
  rcases closeInner_state w s c with h | h | h | ⟨cid, _, h⟩ <;> rw [h] <;> rfl

theorem step_counter (s : RelayState) (e : Ev) :
    (step s e).1.clientIdCounter = s.clientIdCounter + (stepAssign s e).toList.length := by
  cases e with
  | connect c =>
    simp only [step, stepAssign, Option.toList, List.length_nil, Nat.add_zero]
    split <;> rfl
  | close w c =>
    simp only [step, stepAssign, Option.toList, List.length_nil, Nat.add_zero]
    split
    · exact handleClose_counter _ _ _
    · rfl
  | message w c m =>
    cases m with
    | registerClient name =>
      simp only [step, stepAssign]
      split
      · rw [handleMessage_counter]
        rfl
      · rfl
    | registerDashboard =>
      simp only [step, stepAssign, Option.toList, List.length_nil, Nat.add_zero]
      split
      · rw [handleMessage_counter]
      · rfl
    | registerBroadcaster =>
      simp only [step, stepAssign, Option.toList, List.length_nil, Nat.add_zero]
      split
      · rw [handleMessage_counter]
      · rfl
    | requestOffer =>
      simp only [step, stepAssign, Option.toList, List.length_nil, Nat.add_zero]
      split
      · rw [handleMessage_counter]
      · rfl
    | statusUpdate st =>
      simp only [step, stepAssign, Option.toList, List.length_nil, Nat.add_zero]
      split
      · rw [handleMessage_counter]
      · rfl
    | offer lid sdp =>
      simp only [step, stepAssign, Option.toList, List.length_nil, Nat.add_zero]
      split
      · rw [handleMessage_counter]
      · rfl
    | answer sdp =>
      simp only [step, stepAssign, Option.toList, List.length_nil, Nat.add_zero]
      split
      · rw [handleMessage_counter]
      · rfl
    | iceCandidate lid cand =>
      simp only [step, stepAssign, Option.toList, List.length_nil, Nat.add_zero]
      split
      · rw [handleMessage_counter]
      · rfl
    | unknown =>
      simp only [step, stepAssign, Option.toList, List.length_nil, Nat.add_zero]
      split
      · rw [handleMessage_counter]
      · rfl

theorem stepAssign_some (s : RelayState) (e : Ev) (i : Nat)
    (h : stepAssign s e = some i) : i = s.clientIdCounter + 1 := by
  cases e with
  | connect c => cases h
  | close w c => cases h
  | message w c m =>
    cases m with
    | registerClient name =>
      simp only [stepAssign] at h
      by_cases hm : mapHas s.conns c = true
      · rw [if_pos hm] at h
        exact (Option.some_inj.mp h).symm
      · rw [if_neg hm] at h
        cases h
    | registerDashboard => cases h
    | registerBroadcaster => cases h
    | requestOffer => cases h
    | statusUpdate st => cases h
    | offer lid sdp => cases h
    | answer sdp => cases h
    | iceCandidate lid cand => cases h
    | unknown => cases h

theorem assignedIds_eq (tr : List Ev) : ∀ s : RelayState,
    assignedIds s tr = List.range' (s.clientIdCounter + 1) (assignedIds s tr).length := by
  induction tr with
  | nil => intro s; rfl
  | cons e es ih =>
    intro s
    cases ha : stepAssign s e with
    | none =>
      have hc : (step s e).1.clientIdCounter = s.clientIdCounter := by
        have h := step_counter s e
        rw [ha] at h
        simpa using h
      simp only [assignedIds, ha, Option.toList, List.nil_append]
      rw [ih (step s e).1, hc]
      simp [List.length_range']
    | some i =>
      have hi : i = s.clientIdCounter + 1 := stepAssign_some s e i ha
      have hc : (step s e).1.clientIdCounter = s.clientIdCounter + 1 := by
        have h := step_counter s e
        rw [ha] at h
        simpa using h
      simp only [assignedIds, ha, Option.toList, List.singleton_append, List.length_cons]
      rw [List.range'_succ]
      subst hi
      congr 1
      rw [ih (step s e).1, hc]
      simp [List.length_range']

theorem handleMessage_broadcaster (w : World) (s : RelayState) (c : Nat) (m : InMsg)
    (hm : m ≠ InMsg.registerBroadcaster) :
    (handleMessage w s c m).1.broadcaster = s.broadcaster := by
  cases m with
  | registerDashboard =>
    rw [show handleMessage w s c InMsg.registerDashboard = handleRegisterDashboard w s c from rfl,
      hRD_state]
  | registerBroadcaster => exact absurd rfl hm
  | registerClient name =>
    rw [show handleMessage w s c (InMsg.registerClient name) = handleRegisterClient w s c name from rfl,
      hRC_state]
    rfl
  | requestOffer =>
    rcases hRO_state w s c with h | h <;>
      rw [show handleMessage w s c InMsg.requestOffer = handleRequestOffer w s c from rfl, h]
    exact (requestOfferUpd_same s c).1
  | statusUpdate st =>
    rcases hSU_state w s c st with h | ⟨i, _, h⟩ <;>
      rw [show handleMessage w s c (InMsg.statusUpdate st) = handleStatusUpdate w s c st from rfl, h]
  | offer lid sdp =>
    rw [show handleMessage w s c (InMsg.offer lid sdp) = handleOffer w s c lid sdp from rfl,
      hOffer_state]
  | answer sdp =>
    rw [show handleMessage w s c (InMsg.answer sdp) = handleAnswer w s c sdp from rfl,
      hAnswer_state]
  | iceCandidate lid cand =>
    rw [show handleMessage w s c (InMsg.iceCandidate lid cand) = handleIceCandidate w s c lid cand from rfl,
      hIce_state]
  | unknown => rfl

theorem handleClose_broadcaster (w : World) (s : RelayState) (c : Nat) :
    (handleClose w s c).1.broadcaster = s.broadcaster
    ∨ (handleClose w s c).1.broadcaster = none := by
  have hf : (handleClose w s c).1.broadcaster = (closeInner w s c).1.broadcaster := rfl
  rw [hf]
  rcases closeInner_state w s c with h | h | h | ⟨cid, _, h⟩ <;> rw [h]
  · exact Or.inl rfl
  · exact Or.inl rfl
  · exact Or.inr rfl
  · exact Or.inl rfl

theorem getConn_clientId_ne_one (s : RelayState)
    (h3 : ∀ c v, mapGet s.conns c = some v → v.clientId ≠ some 1) (c : Nat) :
    (getConn s c).clientId ≠ some 1 := by
  unfold getConn
  cases hm : mapGet s.conns c with
  | none => simp
  | some v => simpa using h3 c v hm

theorem keyOneStale_step (s : RelayState) (e : Ev) (h : keyOneStale s) :
    keyOneStale (step s e).1 := by
  obtain ⟨h1, h2, h3⟩ := h
  have hcount : (1 : Nat) ≠ s.clientIdCounter + 1 := by omega
  cases e with
  | connect c =>
    simp only [step]
    split
    · exact ⟨h1, h2, h3⟩
    · refine ⟨h1, h2, ?_⟩
      intro c' v hv
      rcases mapGet_append_single _ _ _ _ _ hv with hv' | ⟨_, hv'⟩
      · exact h3 c' v hv'
      · subst hv'
        simp
  | close w c =>
    simp only [step]
    split
    · rcases closeInner_state w s c with ht | ht | ht | ⟨cid, hcid, ht⟩ <;>
        refine ⟨?_, ?_, ?_⟩ <;>
        first
        | (show mapGet (handleClose w s c).1.clients 1 = _
           rw [show (handleClose w s c).1.clients = (closeInner w s c).1.clients from rfl, ht]
           first
           | exact h1
           | (show mapGet (closeDeletedState s cid).clients 1 = _
              have hne : (1 : Nat) ≠ cid := by
                intro he
                exact getConn_clientId_ne_one s h3 c (by rw [hcid, ← he])
              rw [show (closeDeletedState s cid).clients = mapDelete s.clients cid from rfl,
                mapGet_delete_ne _ _ _ hne]
              exact h1))
        | (show 1 ≤ (handleClose w s c).1.clientIdCounter
           rw [handleClose_counter]
           exact h2)
        | (intro c' v hv
           rw [show (handleClose w s c).1.conns
                = mapDelete (closeInner w s c).1.conns c from rfl, ht] at hv
           exact h3 c' v (mapGet_delete_sub _ _ _ _ hv))
    · exact ⟨h1, h2, h3⟩
  | message w c m =>
    simp only [step]
    split
    · cases m with
      | registerDashboard =>
        rw [show handleMessage w s c InMsg.registerDashboard = handleRegisterDashboard w s c from rfl,
          hRD_state]
        refine ⟨h1, h2, ?_⟩
        intro c' v hv
        simp only at hv
        rcases mapGet_set_cases _ _ _ _ _ hv with ⟨_, hv'⟩ | hv'
        · subst hv'
          simpa using getConn_clientId_ne_one s h3 c
        · exact h3 c' v hv'
      | registerBroadcaster =>
        rcases hRB_state w s c with ⟨_, ht⟩ | ⟨_, ht⟩ <;>
          rw [show handleMessage w s c InMsg.registerBroadcaster
            = handleRegisterBroadcaster w s c from rfl, ht]
        · exact ⟨h1, h2, h3⟩
        · refine ⟨h1, h2, ?_⟩
          intro c' v hv
          simp only at hv
          rcases mapGet_set_cases _ _ _ _ _ hv with ⟨_, hv'⟩ | hv'
          · subst hv'
            simpa using getConn_clientId_ne_one s h3 c
          · exact h3 c' v hv'
      | registerClient name =>
        rw [show handleMessage w s c (InMsg.registerClient name)
          = handleRegisterClient w s c name from rfl, hRC_state]
        unfold registerClientState
        refine ⟨?_, by simp only; omega, ?_⟩
        · simp only
          rw [mapGet_set_ne _ _ _ _ hcount]
          exact h1
        · intro c' v hv
          simp only at hv
          rcases mapGet_set_cases _ _ _ _ _ hv with ⟨_, hv'⟩ | hv'
          · subst hv'
            simp
            omega
          · exact h3 c' v hv'
      | requestOffer =>
        rcases hRO_state w s c with ht | ht <;>
          rw [show handleMessage w s c InMsg.requestOffer = handleRequestOffer w s c from rfl, ht]
        · exact ⟨h1, h2, h3⟩
        · rcases requestOfferUpd_state s c with ht2 | ⟨i, hi, ht2⟩ <;> rw [ht2]
          · exact ⟨h1, h2, h3⟩
          · have hne : (1 : Nat) ≠ i := by
              intro he
              exact getConn_clientId_ne_one s h3 c (by rw [hi, ← he])
            refine ⟨?_, h2, h3⟩
            simp only
            rw [mapGet_setStatus_ne _ _ _ _ hne]
            exact h1
      | statusUpdate st =>
        rcases hSU_state w s c st with ht | ⟨i, hi, ht⟩ <;>
          rw [show handleMessage w s c (InMsg.statusUpdate st)
            = handleStatusUpdate w s c st from rfl, ht]
        · exact ⟨h1, h2, h3⟩
        · have hne : (1 : Nat) ≠ i := by
            intro he
            exact getConn_clientId_ne_one s h3 c (by rw [hi, ← he])
          refine ⟨?_, h2, h3⟩
          simp only
          rw [mapGet_setStatus_ne _ _ _ _ hne]
          exact h1
      | offer lid sdp =>
        rw [show handleMessage w s c (InMsg.offer lid sdp) = handleOffer w s c lid sdp from rfl,
          hOffer_state]
        exact ⟨h1, h2, h3⟩
      | answer sdp =>
        rw [show handleMessage w s c (InMsg.answer sdp) = handleAnswer w s c sdp from rfl,
          hAnswer_state]
        exact ⟨h1, h2, h3⟩
      | iceCandidate lid cand =>
        rw [show handleMessage w s c (InMsg.iceCandidate lid cand)
          = handleIceCandidate w s c lid cand from rfl, hIce_state]
        exact ⟨h1, h2, h3⟩
      | unknown => exact ⟨h1, h2, h3⟩
    · exact ⟨h1, h2, h3⟩

theorem keyOneStale_run (tr : List Ev) : ∀ s : RelayState,
    keyOneStale s → keyOneStale (run s tr).1 := by
  induction tr with
  | nil => intro s h; exact h
  | cons e es ih =>
    intro s h
    exact ih (step s e).1 (keyOneStale_step s e h)

theorem sendEndedLoop_eq (w : World) (l : List (Nat × ClientRec))
    (h : ∀ p ∈ l, w.isOpen p.2.wsId = true → w.sendOk p.2.wsId = true) :
    sendEndedLoop w l = l.filterMap
      (fun p => if w.isOpen p.2.wsId then some (p.2.wsId, OutMsg.broadcastEnded) else none) := by
  induction l with
  | nil => rfl
  | cons p rest ih =>
    have ihr := ih (fun q hq hoq => h q (List.mem_cons_of_mem _ hq) hoq)
    by_cases ho : w.isOpen p.2.wsId
    · have hs := h p (List.mem_cons_self _ _) ho
      simp [sendEndedLoop, ho, hs, List.filterMap_cons, ihr]
    · simp [sendEndedLoop, ho, List.filterMap_cons, ihr]

theorem sendEndedLoop_msgs (w : World) (l : List (Nat × ClientRec)) :
    ∀ d ∈ sendEndedLoop w l, d.2 = OutMsg.broadcastEnded := by
  induction l with
  | nil => intro d hd; cases hd
  | cons p rest ih =>
    intro d hd
    unfold sendEndedLoop at hd
    split at hd
    · split at hd
      · rcases List.mem_cons.mp hd with he | he
        · rw [he]
        · exact ih d he
      · cases hd
    · exact ih d hd

theorem sendEndedLoop_roster (w : World) (l : List (Nat × ClientRec)) :
    (sendEndedLoop w l).filter (fun d => isRoster d.2) = [] := by
  rw [List.filter_eq_nil_iff]
  intro d hd
  rw [sendEndedLoop_msgs w l d hd]
  simp [isRoster]

theorem handleClose_deliv_dashboard (w : World) (s : RelayState) (c : Nat)
    (h : (getConn s c).clientType = some Role.dashboard) :
    (handleClose w s c).2 = [] := by
  simp [handleClose, closeInner, h]

theorem handleClose_deliv_unidentified (w : World) (s : RelayState) (c : Nat)
    (h : (getConn s c).clientType = none) :
    (handleClose w s c).2 = [] := by
  simp [handleClose, closeInner, h]

theorem handleClose_deliv_broadcaster (w : World) (s : RelayState) (c : Nat)
    (h : (getConn s c).clientType = some Role.broadcaster) :
    (handleClose w s c).2 = sendEndedLoop w s.clients := by
  simp [handleClose, closeInner, h]

theorem handleClose_deliv_client (w : World) (s : RelayState) (c cid : Nat)
    (h : (getConn s c).clientType = some Role.client)
    (hc : (getConn s c).clientId = some cid) (h0 : cid ≠ 0)
    (hb : ∀ b, s.broadcaster = some b → w.isOpen b = true → w.sendOk b = true) :
    ∃ pre, (handleClose w s c).2
      = pre ++ (broadcastClientList w (closeDeletedState s cid)).1 := by
  have h0' : (cid != 0) = true := by simpa using h0
  cases hbr : s.broadcaster with
  | none => exact ⟨[], by simp [handleClose, closeInner, h, hc, h0', hbr]⟩
  | some b =>
    by_cases ho : w.isOpen b
    · have hs := hb b hbr ho
      exact ⟨[(b, OutMsg.listenerLeft cid (closeClientName s.clients cid))],
        by simp [handleClose, closeInner, h, hc, h0', hbr, ho, hs]⟩
    · exact ⟨[], by simp [handleClose, closeInner, h, hc, h0', hbr, ho]⟩

theorem step_broadcaster_none (s : RelayState) (e : Ev) (h : s.broadcaster = none)
    (he : ∀ w c, e ≠ Ev.message w c InMsg.registerBroadcaster) :
    (step s e).1.broadcaster = none := by
  cases e with
  | connect c =>
    simp only [step]
    split
    · exact h
    · exact h
  | message w c m =>
    have hm : m ≠ InMsg.registerBroadcaster := by
      intro hm
      exact he w c (by rw [hm])
    simp only [step]
    split
    · rw [handleMessage_broadcaster w s c m hm]
      exact h
    · exact h
  | close w c =>
    simp only [step]
    split
    · rcases handleClose_broadcaster w s c with hh | hh
      · rw [hh]; exact h
      · exact hh
    · exact h

theorem guarded_count_mem (w : World) (l : List (Nat × ClientRec)) (n : Nat)
    (p : Nat × ClientRec) (hp : p ∈ l) (ho : w.isOpen p.2.wsId = true)
    (hs : w.sendOk p.2.wsId = true) :
    (p.2.wsId, OutMsg.clientsCount n)
      ∈ l.flatMap (fun q => guardedSend w q.2.wsId (OutMsg.clientsCount n)) :=
  List.mem_flatMap.mpr ⟨p, hp, by simp [guardedSend, ho, hs]⟩

theorem broadcastClientList_ok (w : World) (s : RelayState)
    (hpb : ∀ b, s.broadcaster = some b → w.isOpen b = true → w.sendOk b = true)
    (hpd : ∀ d, s.dashboard = some d → w.isOpen d = true → w.sendOk d = true) :
    broadcastClientList w s =
      ((match s.broadcaster with
        | some b =>
          if w.isOpen b then [(b, OutMsg.clientsFull s.clients.length (getClientList s))]
          else []
        | none => []) ++
       (match s.dashboard with
        | some d =>
          if w.isOpen d then [(d, OutMsg.clientsFull s.clients.length (getClientList s))]
          else []
        | none => []) ++
       s.clients.flatMap
         (fun p => guardedSend w p.2.wsId (OutMsg.clientsCount s.clients.length)), true) := by
  cases hbro : s.broadcaster with
  | none =>
    cases hdash : s.dashboard with
    | none => simp [broadcastClientList, hbro, hdash]
    | some d =>
      by_cases ho : w.isOpen d
      · have hs := hpd d hdash ho
        simp [broadcastClientList, hbro, hdash, ho, hs]
      · simp [broadcastClientList, hbro, hdash, ho]
  | some b =>
    by_cases hob : w.isOpen b
    · have hsb := hpb b hbro hob
      cases hdash : s.dashboard with
      | none => simp [broadcastClientList, hbro, hdash, hob, hsb]
      | some d =>
        by_cases ho : w.isOpen d
        · have hs := hpd d hdash ho
          simp [broadcastClientList, hbro, hdash, hob, hsb, ho, hs]
        · simp [broadcastClientList, hbro, hdash, hob, hsb, ho]
    · cases hdash : s.dashboard with
      | none => simp [broadcastClientList, hbro, hdash, hob]
      | some d =>
        by_cases ho : w.isOpen d
        · have hs := hpd d hdash ho
          simp [broadcastClientList, hbro, hdash, hob, ho, hs]
        · simp [broadcastClientList, hbro, hdash, hob, ho]

theorem handleOffer_drop_role (w : World) (s : RelayState) (c : Nat) (lid : Option Nat)
    (sdp : String) (h : (getConn s c).clientType ≠ some Role.broadcaster) :
    handleOffer w s c lid sdp = (s, []) := by
  unfold handleOffer
  rw [if_neg (fun hh => h hh.1)]

theorem handleOffer_drop_id (w : World) (s : RelayState) (c : Nat) (lid : Option Nat)
    (sdp : String) (h : mapGet s.clients (lid.getD 0) = none) :
    handleOffer w s c lid sdp = (s, []) := by
  unfold handleOffer
  split
  · rw [h]
  · rfl

theorem handleAnswer_drop_role (w : World) (s : RelayState) (c : Nat) (sdp : String)
    (h : (getConn s c).clientType ≠ some Role.client) :
    handleAnswer w s c sdp = (s, []) := by
  unfold handleAnswer
  rw [if_neg (fun hh => h hh.1)]

theorem handleIce_drop_role (w : World) (s : RelayState) (c : Nat) (lid : Option Nat)
    (cand : String) (h1 : (getConn s c).clientType ≠ some Role.broadcaster)
    (h2 : (getConn s c).clientType ≠ some Role.client) :
    handleIceCandidate w s c lid cand = (s, []) := by
  unfold handleIceCandidate
  rw [if_neg (fun hh => h1 hh.1), if_neg (fun hh => h2 hh.1)]

theorem handleStatusUpdate_drop (w : World) (s : RelayState) (c : Nat) (st : String)
    (h : (truthyId (getConn s c).clientId
      && mapHas s.clients (((getConn s c).clientId).getD 0)) = false) :
    handleStatusUpdate w s c st = (s, []) := by
  unfold handleStatusUpdate
  rw [if_neg (by simp [h])]

end Relay

namespace Capture

theorem broadcastListenerCount_no_spawn (w : World) (s : CapState) :
    Effect.spawn ∉ broadcastListenerCount w s := by
  intro hmem
  rcases List.mem_flatMap.mp hmem with ⟨c, _, hc⟩
  by_cases h : (w.isOpen c && w.sendOk c) = true
  · rw [if_pos h] at hc
    simp at hc
  · rw [if_neg h] at hc
    cases hc

end Capture

namespace Relay

/-- C1: `register-broadcaster` is rejected exactly when a live broadcaster
(slot held, handle open) exists — the state is then unchanged and the only
reply is `broadcaster-rejected`; otherwise the registering connection
occupies the slot with role broadcaster.  Processing a registration never
empties the slot (the slot is freed only by the close handler), and the
close of a connection holding the broadcaster role does free it. -/
theorem c1_registerBroadcaster_exclusivity (w : World) (s : RelayState) (c : Nat) :
    (brLive w s = true →
      handleRegisterBroadcaster w s c
        = (s, if w.sendOk c then [(c, OutMsg.broadcasterRejected)] else []))
    ∧ (brLive w s = false →
      (handleRegisterBroadcaster w s c).1.broadcaster = some c
      ∧ (getConn (handleRegisterBroadcaster w s c).1 c).clientType = some Role.broadcaster)
    ∧ ((handleRegisterBroadcaster w s c).1.broadcaster = none → s.broadcaster = none)
    ∧ ((getConn s c).clientType = some Role.broadcaster →
      (handleClose w s c).1.broadcaster = none) := by
  refine ⟨?_, ?_, ?_, ?_⟩
  · intro h
    simp only [handleRegisterBroadcaster, if_pos h]
  · intro h
    rcases hRB_state w s c with ⟨hb, _⟩ | ⟨_, ht⟩
    · rw [h] at hb
      cases hb
    · rw [ht]
      exact ⟨rfl, by simp [getConn, mapGet_set_self]⟩
  · intro h
    rcases hRB_state w s c with ⟨_, ht⟩ | ⟨_, ht⟩
    · rw [ht] at h
      exact h
    · rw [ht] at h
      cases h
  · intro h
    simp [handleClose, closeInner, h]

/-- Witness for C1: with the live broadcaster of `sBL`, socket 7's
registration is rejected with the state unchanged; from the empty initial
state, socket 7 takes the slot. -/
theorem c1_registerBroadcaster_exclusivity_witness :
    brLive allOpen sBL = true
    ∧ handleRegisterBroadcaster allOpen sBL 7
        = (sBL, if allOpen.sendOk 7 then [(7, OutMsg.broadcasterRejected)] else [])
    ∧ brLive allOpen initState = false
    ∧ (handleRegisterBroadcaster allOpen initState 7).1.broadcaster = some 7 :=
  ⟨by decide, (c1_registerBroadcaster_exclusivity allOpen sBL 7).1 (by decide),
   by decide, ((c1_registerBroadcaster_exclusivity allOpen initState 7).2.1 (by decide)).1⟩

/-- C2 counterexample: socket 0 registers as a client (role `client`), then
sends `register-dashboard` and its role successfully changes to `dashboard`
— the first recognized registration does not fix the role. -/
theorem c2_counterexample :
    (getConn reRegState 0).clientType = some Role.client
    ∧ (getConn (step reRegState (Ev.message allOpen 0 InMsg.registerDashboard)).1 0).clientType
        = some Role.dashboard := by
  decide

/-- C2 amended: a registration message re-assigns the connection's role
whenever it succeeds: `register-dashboard` and `register-client` always
succeed regardless of the current role, and `register-broadcaster` succeeds
unless a live broadcaster holds the slot — only in that rejection case does
the sender's role stay unchanged. -/
theorem c2_role_reassignable (w : World) (s : RelayState) (c : Nat) (name : String) :
    (getConn (handleRegisterDashboard w s c).1 c).clientType = some Role.dashboard
    ∧ (getConn (handleRegisterClient w s c name).1 c).clientType = some Role.client
    ∧ (brLive w s = true →
       handleRegisterBroadcaster w s c
         = (s, if w.sendOk c then [(c, OutMsg.broadcasterRejected)] else []))
    ∧ (brLive w s = false →
       (getConn (handleRegisterBroadcaster w s c).1 c).clientType = some Role.broadcaster) := by
  refine ⟨?_, ?_, ?_, ?_⟩
  · rw [hRD_state]
    simp [getConn, mapGet_set_self]
  · rw [hRC_state]
    unfold registerClientState
    simp [getConn, mapGet_set_self]
  · intro h
    simp only [handleRegisterBroadcaster, if_pos h]
  · intro h
    rcases hRB_state w s c with ⟨hb, _⟩ | ⟨_, ht⟩
    · rw [h] at hb
      cases hb
    · rw [ht]
      simp [getConn, mapGet_set_self]

/-- Witness for the amended C2: a registered client re-registers as
dashboard, and a fresh socket becomes broadcaster from the empty state. -/
theorem c2_role_reassignable_witness :
    (getConn (handleRegisterDashboard allOpen reRegState 0).1 0).clientType
        = some Role.dashboard
    ∧ brLive allOpen initState = false
    ∧ (getConn (handleRegisterBroadcaster allOpen initState 0).1 0).clientType
        = some Role.broadcaster :=
  ⟨(c2_role_reassignable allOpen reRegState 0 "").1, by decide,
   (c2_role_reassignable allOpen initState 0 "").2.2.2 (by decide)⟩

end Relay

namespace Capture

/-- C3 counterexample: a listener joins (capture spawns), the subprocess
exits (a restart is scheduled), the listener leaves before the delay
elapses, and when the timer fires the restart does not decline: the run ends
with a spawned subprocess and zero listeners. -/
theorem c3_counterexample :
    (capRun capInit restartTrace).1 = ⟨[], true, true⟩
    ∧ (capRun capInit restartTrace).2
        = [Effect.countSent 1, Effect.spawn, Effect.scheduleRestart 1000, Effect.spawn] := by
  decide

/-- C3 amended: an unexpected subprocess exit schedules a restart after the
fixed 1000 ms delay exactly when listeners remain (and none otherwise); but
the restart attempt, when it fires, checks only whether a subprocess handle
already exists — it never observes the listener count, so with no handle it
spawns even if the listener count dropped to 0 during the delay. -/
theorem c3_restart_schedule (s : CapState) :
    (s.clients ≠ [] →
      handleProcExit s = ({ s with audioProcess := false, isStreaming := false },
        [Effect.scheduleRestart 1000]))
    ∧ (s.clients = [] →
      handleProcExit s = ({ s with audioProcess := false, isStreaming := false }, []))
    ∧ (s.audioProcess = false →
      startAudioCapture s
        = ({ s with audioProcess := true, isStreaming := true }, [Effect.spawn]))
    ∧ (s.audioProcess = true → startAudioCapture s = (s, [])) := by
  refine ⟨?_, ?_, ?_, ?_⟩
  · intro h
    unfold handleProcExit
    rw [if_pos (List.length_pos.mpr h)]
  · intro h
    unfold handleProcExit
    rw [if_neg (by rw [h]; simp)]
  · intro h
    unfold startAudioCapture
    rw [if_neg (by rw [h]; simp)]
  · intro h
    unfold startAudioCapture
    rw [if_pos h]

/-- Witness for the amended C3: a crash with listener 4 present schedules the
1-second restart; a fired restart with no handle spawns. -/
theorem c3_restart_schedule_witness :
    handleProcExit ⟨[4], true, true⟩ = (⟨[4], false, false⟩, [Effect.scheduleRestart 1000])
    ∧ startAudioCapture ⟨[], false, false⟩ = (⟨[], true, true⟩, [Effect.spawn]) :=
  ⟨(c3_restart_schedule ⟨[4], true, true⟩).1 (by decide),
   (c3_restart_schedule ⟨[], false, false⟩).2.2.1 rfl⟩

/-- C4 counterexample: the only listener is reaped as a dead socket during a
fan-out pass; after that handler completes, zero listeners are registered and
a launch failure never occurred, yet the capture subprocess is still live —
the claimed iff fails. -/
theorem c4_counterexample :
    (capRun capInit reapTrace).1.clients = []
    ∧ (capRun capInit reapTrace).1.audioProcess = true
    ∧ reapTrace.all (fun e => !(isProcError e)) = true := by
  decide

/-- C4 amended: the iff holds on the close-event path: a socket close that
leaves zero listeners always leaves no subprocess, and a connect into the
idle empty state launches exactly one subprocess (the roster effects contain
no spawn); but a fan-out pass never touches the subprocess, so a last
listener reaped there leaves the subprocess running. -/
theorem c4_capture_invariant (w : World) (s : CapState) (c : Nat) :
    ((handleSockClose w s c).1.clients = [] → (handleSockClose w s c).1.audioProcess = false)
    ∧ (s.clients = [] → s.audioProcess = false →
       handleConnect w s c
         = ({ s with clients := [c], audioProcess := true, isStreaming := true },
            broadcastListenerCount w { s with clients := [c] } ++ [Effect.spawn]))
    ∧ Effect.spawn ∉ broadcastListenerCount w { s with clients := [c] }
    ∧ (broadcastAudio w s).1.audioProcess = s.audioProcess := by
  refine ⟨?_, ?_, broadcastListenerCount_no_spawn w _, rfl⟩
  · by_cases hl : (setDelete s.clients c).length = 0
    · intro _
      unfold handleSockClose
      rw [if_pos hl]
      unfold stopAudioCapture
      split
      · rfl
      · rename_i hap
        simpa using hap
    · intro h
      unfold handleSockClose at h
      rw [if_neg hl] at h
      exact absurd (by rw [show setDelete s.clients c = [] from h]; rfl) hl
  · intro h1 h2
    unfold handleConnect
    have hadd : setAdd s.clients c = [c] := by
      rw [h1]
      rfl
    rw [hadd]
    rw [if_pos (by rw [h2]; exact ⟨rfl, rfl⟩)]
    unfold startAudioCapture
    rw [if_neg (by rw [h2]; simp)]

/-- Witness for the amended C4: the first listener's arrival from the idle
initial state spawns the subprocess and streams. -/
theorem c4_capture_invariant_witness :
    handleConnect allOpen capInit 9
      = (⟨[9], true, true⟩, broadcastListenerCount allOpen ⟨[9], false, false⟩
          ++ [Effect.spawn]) :=
  (c4_capture_invariant allOpen capInit 9).2.1 rfl rfl

end Capture

namespace Relay

/-- C5 counterexample: listener id 1 (socket 20) is registered at the moment
the broadcaster's socket 10 closes, but its own socket is no longer open, so
it receives zero `broadcast-ended` messages — refuting "no listener receives
zero". -/
theorem c5_counterexample :
    mapGet sBL.clients 1 = some ⟨20, "A", "connecting"⟩
    ∧ (getConn sBL 10).clientType = some Role.broadcaster
    ∧ (step sBL (Ev.close (closedAt 20) 10)).2 = [] := by
  decide

/-- C5 amended: when a broadcaster-role connection closes, each registry
record whose socket is open is sent exactly one `broadcast-ended` (given no
send fails), and records with non-open sockets are sent none; afterwards,
with the slot empty, `request-offer` is answered `no-broadcaster`, and every
event other than a `register-broadcaster` message keeps the slot empty. -/
theorem c5_broadcast_ended_delivery (w : World) (s : RelayState) (c : Nat) :
    ((getConn s c).clientType = some Role.broadcaster →
      (∀ p ∈ s.clients, w.isOpen p.2.wsId = true → w.sendOk p.2.wsId = true) →
      (handleClose w s c).2 = s.clients.filterMap
        (fun p => if w.isOpen p.2.wsId then some (p.2.wsId, OutMsg.broadcastEnded) else none))
    ∧ (s.broadcaster = none →
      handleRequestOffer w s c = (s, if w.sendOk c then [(c, OutMsg.noBroadcaster)] else []))
    ∧ (s.broadcaster = none → ∀ e : Ev,
      (∀ w2 c2, e ≠ Ev.message w2 c2 InMsg.registerBroadcaster) →
      (step s e).1.broadcaster = none) := by
  refine ⟨?_, ?_, ?_⟩
  · intro h hops
    rw [handleClose_deliv_broadcaster w s c h, sendEndedLoop_eq w s.clients hops]
  · intro h
    unfold handleRequestOffer
    rw [if_pos (show brLive w s = false by simp [brLive, h])]
  · intro h e he
    exact step_broadcaster_none s e h he

/-- Witness for the amended C5: closing `sBL`'s broadcaster delivers exactly
one `broadcast-ended` to the open listener socket 20, and with no broadcaster
a `request-offer` from socket 20 is answered `no-broadcaster`. -/
theorem c5_broadcast_ended_delivery_witness :
    (handleClose allOpen sBL 10).2 = [(20, OutMsg.broadcastEnded)]
    ∧ handleRequestOffer allOpen initState 20
        = (initState, [(20, OutMsg.noBroadcaster)]) :=
  ⟨(c5_broadcast_ended_delivery allOpen sBL 10).1 (by decide) (by decide),
   (c5_broadcast_ended_delivery allOpen initState 20).2.1 rfl⟩

/-- C6 counterexample: the broadcaster's close in `sBL` (a non-dashboard
role, with a non-empty roster) triggers no roster notification at all — its
deliveries are exactly one `broadcast-ended` and contain no `clients`
message. -/
theorem c6_counterexample :
    (getConn sBL 10).clientType = some Role.broadcaster
    ∧ (step sBL (Ev.close allOpen 10)).2 = [(20, OutMsg.broadcastEnded)]
    ∧ ((step sBL (Ev.close allOpen 10)).2.filter (fun d => isRoster d.2)) = [] := by
  decide

/-- C6 amended: only a client-role close triggers the roster notification
(and only when the `listener-left` send to a live broadcaster does not
throw); dashboard and unidentified closes deliver nothing, and a broadcaster
close delivers no roster message (only `broadcast-ended` notices). -/
theorem c6_close_notifications (w : World) (s : RelayState) (c : Nat) :
    ((getConn s c).clientType = some Role.dashboard → (handleClose w s c).2 = [])
    ∧ ((getConn s c).clientType = none → (handleClose w s c).2 = [])
    ∧ ((getConn s c).clientType = some Role.broadcaster →
      ((handleClose w s c).2.filter (fun d => isRoster d.2)) = [])
    ∧ (∀ cid, (getConn s c).clientType = some Role.client →
      (getConn s c).clientId = some cid → cid ≠ 0 →
      (∀ b, s.broadcaster = some b → w.isOpen b = true → w.sendOk b = true) →
      ∃ pre, (handleClose w s c).2
        = pre ++ (broadcastClientList w (closeDeletedState s cid)).1) := by
  refine ⟨handleClose_deliv_dashboard w s c, handleClose_deliv_unidentified w s c, ?_, ?_⟩
  · intro h
    rw [handleClose_deliv_broadcaster w s c h]
    exact sendEndedLoop_roster w s.clients
  · intro cid h hc h0 hb
    exact handleClose_deliv_client w s c cid h hc h0 hb

/-- Witness for the amended C6: a dashboard close delivers nothing, and the
client close of socket 20 in `sBL` ends with the roster notification of the
post-delete state. -/
theorem c6_close_notifications_witness :
    (handleClose allOpen dashState 2).2 = []
    ∧ ∃ pre, (handleClose allOpen sBL 20).2
        = pre ++ (broadcastClientList allOpen (closeDeletedState sBL 1)).1 :=
  ⟨(c6_close_notifications allOpen dashState 2).1 (by decide),
   (c6_close_notifications allOpen sBL 20).2.2.2 1 (by decide) (by decide) (by decide)
     (fun b hb ho => rfl)⟩

/-- C7 counterexample: in `notifyState` the dashboard (socket 2) and the
listener (socket 3) are open and their sends would succeed, but the send to
the broadcaster (socket 1) throws, and `broadcastClientList` then delivers
nothing to anyone — a failed send to one recipient does prevent delivery to
the others. -/
theorem c7_counterexample :
    notifyState.dashboard = some 2
    ∧ (sendFailAt 1).isOpen 2 = true ∧ (sendFailAt 1).sendOk 2 = true
    ∧ notifyState.clients = [(1, ⟨3, "C", "connecting"⟩)]
    ∧ (sendFailAt 1).isOpen 3 = true ∧ (sendFailAt 1).sendOk 3 = true
    ∧ broadcastClientList (sendFailAt 1) notifyState = ([], false) := by
  decide

/-- C7 amended: delivery is fire-and-forget per listener recipient — each
listener record with an open socket and a succeeding send receives the count
message no matter what happens to other listeners — provided the unguarded
sends to the broadcaster and the dashboard do not throw; under that proviso
the pass completes, sending the full list to the live broadcaster and
dashboard and the count to exactly the listeners whose guarded send
succeeds. -/
theorem c7_notification_fanout (w : World) (s : RelayState)
    (hpb : ∀ b, s.broadcaster = some b → w.isOpen b = true → w.sendOk b = true)
    (hpd : ∀ d, s.dashboard = some d → w.isOpen d = true → w.sendOk d = true) :
    broadcastClientList w s =
      ((match s.broadcaster with
        | some b =>
          if w.isOpen b then [(b, OutMsg.clientsFull s.clients.length (getClientList s))]
          else []
        | none => []) ++
       (match s.dashboard with
        | some d =>
          if w.isOpen d then [(d, OutMsg.clientsFull s.clients.length (getClientList s))]
          else []
        | none => []) ++
       s.clients.flatMap
         (fun p => guardedSend w p.2.wsId (OutMsg.clientsCount s.clients.length)), true)
    ∧ ∀ p ∈ s.clients, w.isOpen p.2.wsId = true → w.sendOk p.2.wsId = true →
        (p.2.wsId, OutMsg.clientsCount s.clients.length) ∈ (broadcastClientList w s).1 := by
  refine ⟨broadcastClientList_ok w s hpb hpd, ?_⟩
  intro p hp ho hs
  rw [broadcastClientList_ok w s hpb hpd]
  exact List.mem_append.mpr (Or.inr (guarded_count_mem w s.clients _ p hp ho hs))

/-- Witness for the amended C7: with all sends succeeding, `notifyState`'s
notification pass delivers the full list to broadcaster and dashboard and the
count to the listener. -/
theorem c7_notification_fanout_witness :
    broadcastClientList allOpen notifyState
      = ([(1, OutMsg.clientsFull 1 [(1, "C", "connecting")]),
          (2, OutMsg.clientsFull 1 [(1, "C", "connecting")]),
          (3, OutMsg.clientsCount 1)], true)
    ∧ (3, OutMsg.clientsCount 1) ∈ (broadcastClientList allOpen notifyState).1 :=
  ⟨(c7_notification_fanout allOpen notifyState (fun b hb ho => rfl)
      (fun d hd ho => rfl)).1,
   (c7_notification_fanout allOpen notifyState (fun b hb ho => rfl)
      (fun d hd ho => rfl)).2 (1, ⟨3, "C", "connecting"⟩) (by decide) rfl rfl⟩

/-- C8 counterexample: the dashboard (socket 2) sends `request-offer` — a
message its role does not permit — and instead of a silent drop the
broadcaster receives `listener-joined` with a null listener id. -/
theorem c8_counterexample :
    (getConn dashState 2).clientType = some Role.dashboard
    ∧ (step dashState (Ev.message allOpen 2 InMsg.requestOffer)).2
        = [(1, OutMsg.listenerJoined none "Unknown")] := by
  decide

/-- C8 amended: `offer`, `answer`, `ice-candidate` and `status-update`
violations are silently dropped (state unchanged, nothing delivered): an
`offer` from a non-broadcaster or naming an unknown listener id, an `answer`
from a non-client, an `ice-candidate` from a connection that is neither
broadcaster nor client, a `status-update` without a truthy registered id.
`request-offer`, however, is processed for any sender role: with no live
broadcaster it replies `no-broadcaster` to the sender. -/
theorem c8_silent_drop (w : World) (s : RelayState) (c : Nat)
    (lid : Option Nat) (sdp cand st : String) :
    ((getConn s c).clientType ≠ some Role.broadcaster → handleOffer w s c lid sdp = (s, []))
    ∧ (mapGet s.clients (lid.getD 0) = none → handleOffer w s c lid sdp = (s, []))
    ∧ ((getConn s c).clientType ≠ some Role.client → handleAnswer w s c sdp = (s, []))
    ∧ ((getConn s c).clientType ≠ some Role.broadcaster →
      (getConn s c).clientType ≠ some Role.client →
      handleIceCandidate w s c lid cand = (s, []))
    ∧ ((truthyId (getConn s c).clientId
        && mapHas s.clients (((getConn s c).clientId).getD 0)) = false →
      handleStatusUpdate w s c st = (s, []))
    ∧ (brLive w s = false →
      handleRequestOffer w s c = (s, if w.sendOk c then [(c, OutMsg.noBroadcaster)] else [])) := by
  refine ⟨handleOffer_drop_role w s c lid sdp, handleOffer_drop_id w s c lid sdp,
    handleAnswer_drop_role w s c sdp, handleIce_drop_role w s c lid cand,
    handleStatusUpdate_drop w s c st, ?_⟩
  intro h
  unfold handleRequestOffer
  rw [if_pos (show brLive w s = false from h)]

/-- Witness for the amended C8: the dashboard's `offer` and `answer` are
silently dropped, and its `request-offer` with no broadcaster yields
`no-broadcaster`. -/
theorem c8_silent_drop_witness :
    handleOffer allOpen dashState 2 (some 1) "sdp" = (dashState, [])
    ∧ handleAnswer allOpen dashState 2 "sdp" = (dashState, [])
    ∧ handleRequestOffer allOpen initState 2
        = (initState, [(2, OutMsg.noBroadcaster)]) :=
  ⟨(c8_silent_drop allOpen dashState 2 (some 1) "sdp" "x" "y").1 (by decide),
   (c8_silent_drop allOpen dashState 2 (some 1) "sdp" "x" "y").2.2.1 (by decide),
   (c8_silent_drop allOpen initState 2 (some 1) "sdp" "x" "y").2.2.2.2.2 rfl⟩

end Relay

namespace Relay

/-- C9: over every event trace from process start, the listener ids assigned
by `register-client` are exactly `1, 2, 3, …` (the list of assigned ids is
`range' 1 len`), hence strictly increasing from 1 with no id ever assigned
twice within the process lifetime, even across unregistrations. -/
theorem c9_listener_ids_monotone (tr : List Ev) :
    assignedIds initState tr = List.range' 1 (assignedIds initState tr).length
    ∧ (assignedIds initState tr).Pairwise (· < ·)
    ∧ (assignedIds initState tr).Nodup := by
  have h := assignedIds_eq tr initState
  refine ⟨h, ?_, ?_⟩
  · rw [h]
    exact List.pairwise_lt_range' _ _
  · rw [h]
    exact List.nodup_range' _ _

/-- C10: socket 5 registers twice, receiving ids 1 then 2 and two registry
records; its close removes only the most recent record (id 2), and the stale
record `(1, ws 5, "A", connecting)` then survives every possible further
event trace — it stays in the registry and in every roster view for the rest
of the process lifetime. -/
theorem c10_stale_record_persists :
    tenMidState.clients = [(1, ⟨5, "A", "connecting"⟩), (2, ⟨5, "B", "connecting"⟩)]
    ∧ assignedIds initState tenTrace = [1, 2]
    ∧ tenState.clients = [(1, ⟨5, "A", "connecting"⟩)]
    ∧ ∀ tr : List Ev,
        mapGet (run tenState tr).1.clients 1 = some ⟨5, "A", "connecting"⟩
        ∧ (1, "A", "connecting") ∈ getClientList (run tenState tr).1 := by
  refine ⟨by decide, by decide, by decide, ?_⟩
  intro tr
  have hten : keyOneStale tenState := by
    refine ⟨by decide, by decide, ?_⟩
    intro c v hv
    rw [show tenState.conns = [] by decide] at hv
    cases hv
  have h := keyOneStale_run tr tenState hten
  refine ⟨h.1, ?_⟩
  have hm := mapGet_mem _ _ _ h.1
  unfold getClientList
  exact List.mem_map.mpr ⟨(1, ⟨5, "A", "connecting"⟩), hm, rfl⟩

end Relay
